import Mathlib

/-!
Verification of the job-hunter aggregation core (src/lib/search.ts,
src/lib/format.ts) against its natural-language specification.

The TypeScript source is shallowly embedded: JS numbers that hold salary
amounts become `Int`, nullable fields become `Option`, JS truthiness of
strings and numbers is modelled explicitly (empty string and zero are
falsy), and the asynchronous adapter fan-out becomes a pure function over
an explicit environment describing what each upstream fetch would return.
The cache module (src/lib/cache.ts) is not part of the sources; it is
modelled from the specification, section 4.1.
-/

namespace JobHunter

/-! ### JS string and number truthiness helpers -/

/-- JS truthiness of a nullable number: `null`, and `0`, are falsy. -/
def truthyN : Option Int → Bool
  | none => false
  | some n => n != 0

/-- JS truthiness of a nullable string: `null`, and `""`, are falsy. -/
def truthyS : Option String → Bool
  | none => false
  | some s => s != ""

/-- JS `o || d` for a nullable string `o`: the string when truthy, else `d`. -/
def jsOrStr (o : Option String) (d : String) : String :=
  match o with
  | some s => if s = "" then d else s
  | none => d

/-- JS `o || null` for a nullable string: collapses the empty string to null. -/
def jsOrNull (o : Option String) : Option String :=
  match o with
  | some s => if s = "" then none else some s
  | none => none

/-! ### Number.prototype.toLocaleString for integers (en-US digit grouping) -/

/-- Group a reversed digit list into blocks of three (least significant first). -/
def groupThrees : List Char → List (List Char)
  | [] => []
  | [a] => [[a]]
  | [a, b] => [[a, b]]
  | a :: b :: c :: rest => [a, b, c] :: groupThrees rest

/-- Render a natural number with comma thousands separators, as
`Number.prototype.toLocaleString()` does for integers in the en-US locale. -/
def commaGroup (n : Nat) : String :=
  String.mk ((((toString n).toList.reverse |> groupThrees).intersperse [',']).flatten.reverse)

/-- `toLocaleString` for a (possibly negative) integer amount. -/
def localeString (n : Int) : String :=
  if n < 0 then "-" ++ commaGroup n.natAbs else commaGroup n.natAbs

/-! ### formatSalary (src/lib/format.ts lines 161-174) -/

/-- Embedding of `formatSalary(min, max, interval, currency)`.
Mirrors the source line by line: the guard `if (!min && !max) return null`
uses JS truthiness, `currency || "USD"` and `` interval ? `/${interval}` : "" ``
use string truthiness, and amounts are rendered with `toLocaleString`. -/
def formatSalary (mn mx : Option Int) (interval currency : Option String) : Option String :=
  if !truthyN mn && !truthyN mx then none
  else
    let curr := jsOrStr currency "USD"
    let per := if truthyS interval then "/" ++ interval.getD "" else ""
    if truthyN mn && truthyN mx then
      some (curr ++ " " ++ localeString (mn.getD 0) ++ "-" ++ localeString (mx.getD 0) ++ per)
    else if truthyN mn then
      some (curr ++ " " ++ localeString (mn.getD 0) ++ "+" ++ per)
    else if truthyN mx then
      some ("up to " ++ curr ++ " " ++ localeString (mx.getD 0) ++ per)
    else none

/-! ### String.prototype.split on whitespace and String.prototype.includes -/

/-- Worker for `query.split(/\s+/)`: walks the characters keeping the current
token (reversed) and whether the previous character was whitespace.  Matches
the JS semantics, in which leading or trailing whitespace produces an empty
token at the corresponding end and the empty string splits to `[""]`. -/
def splitWsAux : List Char → List Char → Bool → List String
  | [], cur, _ => [String.mk cur.reverse]
  | c :: rest, cur, inWs =>
    if c.isWhitespace then
      if inWs then splitWsAux rest cur true
      else String.mk cur.reverse :: splitWsAux rest [] true
    else splitWsAux rest (c :: cur) false

/-- Embedding of `s.split(/\s+/)`. -/
def splitWs (s : String) : List String := splitWsAux s.toList [] false

/-- Embedding of `s.toLowerCase()` (the strings in play are ASCII). -/
def lowerStr (s : String) : String := String.mk (s.toList.map Char.toLower)

/-- Is `pat` a prefix of `l` (character lists)? -/
def charsPrefix : List Char → List Char → Bool
  | [], _ => true
  | _ :: _, [] => false
  | p :: ps, c :: cs => p == c && charsPrefix ps cs

/-- Does `l` contain `pat` as a contiguous substring? -/
def charsSub (pat : List Char) : List Char → Bool
  | [] => pat.isEmpty
  | c :: rest => charsPrefix pat (c :: rest) || charsSub pat rest

/-- Embedding of `text.includes(pat)`. -/
def strIncludes (text pat : String) : Bool := charsSub pat.toList text.toList

/-! ### Date(ms).toISOString() for the Board-B adapter -/

/-- Left-pad a natural number to two digits. -/
def pad2 (n : Nat) : String := if n < 10 then "0" ++ toString n else toString n

/-- Left-pad a natural number to three digits. -/
def pad3 (n : Nat) : String :=
  if n < 10 then "00" ++ toString n else if n < 100 then "0" ++ toString n else toString n

/-- Left-pad a natural number to four digits. -/
def pad4 (n : Nat) : String :=
  if n < 10 then "000" ++ toString n
  else if n < 100 then "00" ++ toString n
  else if n < 1000 then "0" ++ toString n
  else toString n

/-- Embedding of `new Date(t).toISOString()` for a millisecond epoch `t`,
via the standard civil-from-days calendar computation.  Years outside
0..9999 use an expanded form in JS that is not modelled here; no claim
depends on the rendered date text. -/
def isoOfMillis (t : Int) : String :=
  let day : Int := 86400000
  let days : Int := t.ediv day
  let ms : Nat := (t - days * day).toNat
  let z : Int := days + 719468
  let era : Int := z.ediv 146097
  let doe : Nat := (z - era * 146097).toNat
  let yoe : Nat := (doe - doe / 1460 + doe / 36524 - doe / 146096) / 365
  let doy : Nat := doe - (365 * yoe + yoe / 4 - yoe / 100)
  let mp : Nat := (5 * doy + 2) / 153
  let d : Nat := doy - (153 * mp + 2) / 5 + 1
  let m : Nat := if mp < 10 then mp + 3 else mp - 9
  let y : Int := (yoe : Int) + era * 400 + (if m ≤ 2 then 1 else 0)
  let hh := ms / 3600000
  let mi := ms % 3600000 / 60000
  let ss := ms % 60000 / 1000
  let mss := ms % 1000
  (if y < 0 then "-" ++ pad4 y.natAbs else pad4 y.toNat) ++ "-" ++ pad2 m ++ "-" ++ pad2 d
    ++ "T" ++ pad2 hh ++ ":" ++ pad2 mi ++ ":" ++ pad2 ss ++ "." ++ pad3 mss ++ "Z"

/-! ### Data model (src/lib/format.ts JobResult, src/lib/search.ts inputs) -/

/-- The normalized job record, `JobResult` in src/lib/format.ts. -/
structure JobResult where
  title : String
  company : String
  location : String
  isRemote : Bool
  jobUrl : String
  source : String
  datePosted : Option String
  salary : Option String
  description : String
deriving Repr, DecidableEq

/-- A source-native record returned by the external `scrapeJobs` capability
(ts-jobspy `JobData`, restricted to the fields src/lib/search.ts reads). -/
structure JobSpyRecord where
  site : String
  jobUrl : String
  title : String
  company : Option String
  location : Option String
  isRemote : Option Bool
  datePosted : Option String
  description : Option String
  minAmount : Option Int
  maxAmount : Option Int
  interval : Option String
  currency : Option String
deriving Repr, DecidableEq

/-- A job object from the Greenhouse board API payload (`data.jobs` element),
restricted to the fields src/lib/search.ts reads.  `locationName` stands for
`location?.name` (absent when either level is missing). -/
structure GreenhouseJob where
  title : String
  locationName : Option String
  absoluteUrl : String
  updatedAt : Option String
  content : Option String
deriving Repr, DecidableEq

/-- A posting object from the Lever postings API payload, restricted to the
fields src/lib/search.ts reads. -/
structure LeverPosting where
  text : String
  categoriesLocation : Option String
  categoriesTeam : Option String
  hostedUrl : Option String
  applyUrl : Option String
  createdAt : Option Int
  descriptionPlain : Option String
  description : Option String
deriving Repr, DecidableEq

/-- Outcome of one `fetch` call as the adapters observe it: the fetch or the
JSON decode threw, or the response carried a non-success status, or a decoded
payload came back. -/
inductive FetchOutcome (α : Type) where
  | err : FetchOutcome α
  | notOk : FetchOutcome α
  | ok : α → FetchOutcome α

/-- Did the fetch fail (throw or non-success status)? -/
def FetchOutcome.failed : FetchOutcome α → Bool
  | .err => true
  | .notOk => true
  | .ok _ => false

/-! ### The three source adapters (src/lib/search.ts lines 27-152) -/

/-- Normalization of one scraped record, the `results.map` body of
`searchJobSpy` (lines 52-62).  Every `||` fallback is JS truthiness. -/
def mapJobSpy (r : JobSpyRecord) : JobResult :=
  { title := if r.title = "" then "Untitled" else r.title
    company := jsOrStr r.company "Unknown"
    location := jsOrStr r.location "Unknown"
    isRemote := r.isRemote.getD false
    jobUrl := r.jobUrl
    source := if r.site = "" then "jobspy" else r.site
    datePosted := jsOrNull r.datePosted
    salary := formatSalary r.minAmount r.maxAmount r.interval r.currency
    description := jsOrStr r.description "" }

/-- The jobspy adapter together with the `.catch(() => [])` wrapper that
`search` puts around it (lines 186-190): a rejected scrape (`none`) becomes
the empty list, a resolved one is mapped record by record. -/
def searchJobSpy (outcome : Option (List JobSpyRecord)) : List JobResult :=
  match outcome with
  | none => []
  | some rs => rs.map mapJobSpy

/-- Lower-cased whitespace tokens of the query,
`query.toLowerCase().split(/\s+/)`. -/
def queryTokens (query : String) : List String := splitWs (lowerStr query)

/-- The text a Greenhouse job is matched against:
`` `${j.title} ${j.location?.name || ""}`.toLowerCase() `` (line 84). -/
def ghText (j : GreenhouseJob) : String :=
  lowerStr (j.title ++ " " ++ jsOrStr j.locationName "")

/-- The Greenhouse relevance filter (lines 83-86): keep a job iff some
query token occurs in its title-and-location text. -/
def ghMatches (query : String) (j : GreenhouseJob) : Bool :=
  (queryTokens query).any (fun w => strIncludes (ghText j) w)

/-- Normalization of one Greenhouse job for board `board` (lines 88-100). -/
def ghNormalize (board : String) (j : GreenhouseJob) : JobResult :=
  { title := j.title
    company := board
    location := jsOrStr j.locationName "Unknown"
    isRemote := strIncludes (lowerStr (jsOrStr j.locationName "")) "remote"
    jobUrl := j.absoluteUrl
    source := "greenhouse"
    datePosted := jsOrNull j.updatedAt
    salary := none
    description := jsOrStr j.content "" }

/-- One iteration of the `searchGreenhouse` board loop (lines 74-104): a
thrown fetch or decode (`err`, the catch branch) and a non-success status
(`notOk`, the `continue`) both contribute nothing; a payload is filtered
and normalized. -/
def ghBoard (env : String → FetchOutcome (List GreenhouseJob)) (query board : String) :
    List JobResult :=
  match env board with
  | .err => []
  | .notOk => []
  | .ok jobs => (jobs.filter (ghMatches query)).map (ghNormalize board)

/-- Embedding of `searchGreenhouse(query, boards)` over a fetch environment. -/
def searchGreenhouse (env : String → FetchOutcome (List GreenhouseJob))
    (query : String) (boards : List String) : List JobResult :=
  (boards.map (ghBoard env query)).flatten

/-- The text a Lever posting is matched against (line 128), which also
includes the team field. -/
def leverText (p : LeverPosting) : String :=
  lowerStr (p.text ++ " " ++ jsOrStr p.categoriesLocation "" ++ " "
    ++ jsOrStr p.categoriesTeam "")

/-- The Lever relevance filter (lines 127-130). -/
def leverMatches (query : String) (p : LeverPosting) : Bool :=
  (queryTokens query).any (fun w => strIncludes (leverText p) w)

/-- Normalization of one Lever posting for site `site` (lines 132-145).
`p.hostedUrl || p.applyUrl` with both fields absent is `undefined` in JS
(and would crash dedupe downstream); it is rendered here as `""`. -/
def leverNormalize (site : String) (p : LeverPosting) : JobResult :=
  let location := jsOrStr p.categoriesLocation "Unknown"
  { title := p.text
    company := site
    location := location
    isRemote := strIncludes (lowerStr location) "remote"
    jobUrl := jsOrStr p.hostedUrl (p.applyUrl.getD "")
    source := "lever"
    datePosted := match p.createdAt with
      | some t => if t = 0 then none else some (isoOfMillis t)
      | none => none
    salary := none
    description := jsOrStr p.descriptionPlain (jsOrStr p.description "") }

/-- One iteration of the `searchLever` site loop (lines 118-149). -/
def leverSite (env : String → FetchOutcome (List LeverPosting)) (query site : String) :
    List JobResult :=
  match env site with
  | .err => []
  | .notOk => []
  | .ok ps => (ps.filter (leverMatches query)).map (leverNormalize site)

/-- Embedding of `searchLever(query, sites)` over a fetch environment. -/
def searchLever (env : String → FetchOutcome (List LeverPosting))
    (query : String) (sites : List String) : List JobResult :=
  (sites.map (leverSite env query)).flatten

/-! ### Deduplication (src/lib/search.ts lines 157-165) -/

/-- The dedup key of a job URL:
`jobUrl.replace(/\?.*$/, "").replace(/\/+$/, "").toLowerCase()` —
drop everything from the first question mark, drop trailing slashes,
case-fold.  (URLs are assumed newline-free, as the JS regexes presume.) -/
def dedupKey (url : String) : String :=
  lowerStr (String.mk ((url.toList.takeWhile (fun c => c != '?')).reverse.dropWhile
    (fun c => c = '/')).reverse)

/-- Worker for `dedupe`: the `seen` set of the source, threaded explicitly. -/
def dedupeAux (seen : List String) : List JobResult → List JobResult
  | [] => []
  | j :: rest =>
    if dedupKey j.jobUrl ∈ seen then dedupeAux seen rest
    else j :: dedupeAux (dedupKey j.jobUrl :: seen) rest

/-- Embedding of `dedupe(jobs)`: keep the first job for each dedup key. -/
def dedupe (jobs : List JobResult) : List JobResult := dedupeAux [] jobs

/-! ### Cache.

Modelled from the spec: `src/lib/cache.ts` is imported by src/lib/search.ts
and src/job-hunt.ts but is not among the sources, so the store, `get`,
`set`, `clear` and `prune` below follow specification section 4.1: a
key→value store keyed by `(namespaceKey, paramsKey)`, entries
`{ value, storedAt }`, an entry valid iff `now - storedAt <= ttlMs`,
expired entries treated as absent on read but deleted only by prune or
clear.  The spec gives `prune` no parameters and entries store no TTL, so
the TTL pruned against is passed explicitly here. -/

/-- A cache entry: the stored value and its store time (spec section 3,
`CacheEntry`). -/
structure CacheEntry where
  value : List JobResult
  storedAt : Nat
deriving Repr, DecidableEq

/-- The cache store: an association of `(namespaceKey, paramsKey)` to entries. -/
abbrev CacheStore := List ((String × String) × CacheEntry)

/-- Modelled from the spec: raw lookup of the entry under a key. -/
def cacheLookup (st : CacheStore) (ns pk : String) : Option CacheEntry :=
  match st.find? (fun e => e.1 == (ns, pk)) with
  | some e => some e.2
  | none => none

/-- Modelled from the spec: `get(namespaceKey, paramsKey, ttlMs)` at time
`now` — the stored value when the entry exists and is fresh, else absent;
the store is not modified (a pure read). -/
def cacheGet (st : CacheStore) (ns pk : String) (ttlMs now : Nat) :
    Option (List JobResult) :=
  match cacheLookup st ns pk with
  | some e => if now - e.storedAt ≤ ttlMs then some e.value else none
  | none => none

/-- Modelled from the spec: `set(namespaceKey, paramsKey, value)` at time
`now` — overwrite the key with a fresh entry. -/
def cacheSet (st : CacheStore) (ns pk : String) (v : List JobResult) (now : Nat) :
    CacheStore :=
  ((ns, pk), { value := v, storedAt := now }) :: st.filter (fun e => !(e.1 == (ns, pk)))

/-- Modelled from the spec: `clear()` — remove everything, return the count. -/
def cacheClear (st : CacheStore) : CacheStore × Nat := ([], st.length)

/-- Modelled from the spec: `prune()` at time `now` against TTL `ttlMs` —
remove expired entries only, return the count removed. -/
def cachePrune (st : CacheStore) (ttlMs now : Nat) : CacheStore × Nat :=
  let kept := st.filter (fun e => now - e.2.storedAt ≤ ttlMs)
  (kept, st.length - kept.length)

/-! ### The search orchestration (src/lib/search.ts lines 170-206) -/

/-- `SearchOptions` (src/lib/search.ts lines 11-20); absent optional fields
are `none`. -/
structure SearchOptions where
  site : Option String := none
  location : Option String := none
  remote : Option Bool := none
  results : Option Nat := none
  jobType : Option String := none
  hoursOld : Option Nat := none
  greenhouseBoards : Option (List String) := none
  leverSites : Option (List String) := none
deriving Repr, DecidableEq

/-- `CACHE_TTL_MS = 30 * 60 * 1000` (line 22). -/
def CACHE_TTL_MS : Nat := 30 * 60 * 1000

/-- A JSON string literal (escaping not modelled; keys and values in play
contain no quotes or control characters). -/
def jsonStr (s : String) : String := "\"" ++ s ++ "\""

/-- A JSON array of strings. -/
def jsonStrList (l : List String) : String :=
  "[" ++ ((l.map jsonStr).intersperse ",").foldl (· ++ ·) "" ++ "]"

/-- Embedding of `JSON.stringify(opts)` (line 174): fields in declaration
order, absent (`undefined`) fields omitted. -/
def serializeOptions (o : SearchOptions) : String :=
  let fields :=
    (match o.site with | some s => [jsonStr "site" ++ ":" ++ jsonStr s] | none => []) ++
    (match o.location with | some s => [jsonStr "location" ++ ":" ++ jsonStr s] | none => []) ++
    (match o.remote with
      | some b => [jsonStr "remote" ++ ":" ++ (if b then "true" else "false")] | none => []) ++
    (match o.results with | some n => [jsonStr "results" ++ ":" ++ toString n] | none => []) ++
    (match o.jobType with | some s => [jsonStr "jobType" ++ ":" ++ jsonStr s] | none => []) ++
    (match o.hoursOld with | some n => [jsonStr "hoursOld" ++ ":" ++ toString n] | none => []) ++
    (match o.greenhouseBoards with
      | some bs => [jsonStr "greenhouseBoards" ++ ":" ++ jsonStrList bs] | none => []) ++
    (match o.leverSites with
      | some ls => [jsonStr "leverSites" ++ ":" ++ jsonStrList ls] | none => [])
  "\x7b" ++ (fields.intersperse ",").foldl (· ++ ·) "" ++ "\x7d"

/-- The external world one `search` call runs against: the outcome of the
scrape (rejected = `none`) and the outcome of each per-identifier fetch of
the two board APIs. -/
structure SearchEnv where
  jobspy : Option (List JobSpyRecord)
  greenhouse : String → FetchOutcome (List GreenhouseJob)
  lever : String → FetchOutcome (List LeverPosting)

/-- Which adapters a `search` call invoked: whether the scrape ran, and
which board and site identifiers were fetched. -/
structure SearchTrace where
  jobspyCalled : Bool
  ghFetched : List String
  leverFetched : List String
deriving Repr, DecidableEq

/-- The no-network trace of a cache hit. -/
def emptyTrace : SearchTrace :=
  { jobspyCalled := false, ghFetched := [], leverFetched := [] }

/-- The jobspy inclusion test (line 184):
`!opts.site || ["linkedin", "indeed"].includes(opts.site)`. -/
def includeJobspy (o : SearchOptions) : Bool :=
  match o.site with
  | none => true
  | some s => if s = "" then true else decide (s = "linkedin" ∨ s = "indeed")

/-- The Greenhouse boards actually fetched (line 193): the configured list
when present and non-empty, else nothing. -/
def ghBoardsOf (o : SearchOptions) : List String :=
  match o.greenhouseBoards with
  | some bs => if 0 < bs.length then bs else []
  | none => []

/-- The Lever sites actually fetched (line 197). -/
def leverSitesOf (o : SearchOptions) : List String :=
  match o.leverSites with
  | some ls => if 0 < ls.length then ls else []
  | none => []

/-- What one `search` call produces: the returned list, the cache store
afterwards, and the adapter-invocation trace. -/
structure SearchOutput where
  results : List JobResult
  cacheAfter : CacheStore
  trace : SearchTrace
deriving Repr

/-- Embedding of `search(query, opts)` (lines 170-206) at time `now` over
cache store `st` and environment `env`: on a cache hit return the cached
list with no adapter invoked; on a miss run the included adapters,
concatenate in push order (jobspy, greenhouse, lever), deduplicate, store,
return.  The JS function can only reject on invalid input upstream of this
logic; this embedding is total. -/
def search (env : SearchEnv) (now : Nat) (st : CacheStore)
    (query : String) (opts : SearchOptions) : SearchOutput :=
  let cacheParams := serializeOptions opts
  match cacheGet st query cacheParams CACHE_TTL_MS now with
  | some cached => { results := cached, cacheAfter := st, trace := emptyTrace }
  | none =>
    let jobspyPart := if includeJobspy opts then searchJobSpy env.jobspy else []
    let ghPart := searchGreenhouse env.greenhouse query (ghBoardsOf opts)
    let leverPart := searchLever env.lever query (leverSitesOf opts)
    let deduped := dedupe (jobspyPart ++ ghPart ++ leverPart)
    { results := deduped
      cacheAfter := cacheSet st query cacheParams deduped now
      trace := { jobspyCalled := includeJobspy opts
                 ghFetched := ghBoardsOf opts
                 leverFetched := leverSitesOf opts } }

/-! ### Concrete records and environments used in witnesses and
counterexamples -/

/-- Two jobs whose URLs differ only by query string, trailing slash and
case, hence share a dedup key. -/
def jobU1 : JobResult :=
  { title := "T", company := "C", location := "L", isRemote := false
    jobUrl := "https://X.com/a?ref=1", source := "greenhouse"
    datePosted := none, salary := none, description := "" }

/-- Same dedup key as `jobU1`. -/
def jobU2 : JobResult := { jobU1 with jobUrl := "https://x.com/a/" }

/-- A well-formed scraped record from the linkedin board. -/
def recCap1 : JobSpyRecord :=
  { site := "linkedin", jobUrl := "https://a/1", title := "T1"
    company := none, location := none, isRemote := none, datePosted := none
    description := none, minAmount := none, maxAmount := none
    interval := none, currency := none }

/-- A well-formed scraped record from the indeed board, distinct URL. -/
def recCap2 : JobSpyRecord := { recCap1 with jobUrl := "https://a/2", site := "indeed" }

/-- An environment in which only the scrape succeeds, with two records. -/
def envCap : SearchEnv :=
  { jobspy := some [recCap1, recCap2]
    greenhouse := fun _ => .err
    lever := fun _ => .err }

/-- The posting of the spec example: title Backend Engineer, location
Remote. -/
def ghBE : GreenhouseJob :=
  { title := "Backend Engineer", locationName := some "Remote"
    absoluteUrl := "https://g/1", updatedAt := none, content := none }

/-- The Lever posting of the spec example. -/
def levBE : LeverPosting :=
  { text := "Backend Engineer", categoriesLocation := some "Remote"
    categoriesTeam := none, hostedUrl := some "https://l/1", applyUrl := none
    createdAt := none, descriptionPlain := none, description := none }

/-- An environment in which the scrape rejects and one Greenhouse board and
one Lever site respond. -/
def envFail : SearchEnv :=
  { jobspy := none
    greenhouse := fun b => if b = "acme" then .ok [ghBE] else .err
    lever := fun s => if s = "lv" then .ok [levBE] else .err }

/-- A scraped record carrying an empty URL, as nothing in the adapter
prevents. -/
def recBad : JobSpyRecord := { recCap1 with jobUrl := "" }

/-- An environment whose scrape returns the ill-formed record. -/
def envBad : SearchEnv :=
  { jobspy := some [recBad]
    greenhouse := fun _ => .err
    lever := fun _ => .err }

/-! ### Properties of dedupe -/

theorem dedupeAux_sublist (seen : List String) (l : List JobResult) :
    List.Sublist (dedupeAux seen l) l := by
  induction l generalizing seen with
  | nil => simp [dedupeAux]
  | cons j rest ih =>
    simp only [dedupeAux]
    by_cases h : dedupKey j.jobUrl ∈ seen
    · rw [if_pos h]; exact (ih seen).cons j
    · rw [if_neg h]; exact (ih _).cons₂ j

theorem dedupeAux_not_seen (seen : List String) (l : List JobResult) :
    ∀ j2 ∈ dedupeAux seen l, dedupKey j2.jobUrl ∉ seen := by
  induction l generalizing seen with
  | nil => simp [dedupeAux]
  | cons j rest ih =>
    simp only [dedupeAux]
    by_cases h : dedupKey j.jobUrl ∈ seen
    · rw [if_pos h]; exact ih seen
    · rw [if_neg h]
      intro j2 hj2
      rcases List.mem_cons.mp hj2 with rfl | hmem
      · exact h
      · intro hs
        exact ih (dedupKey j.jobUrl :: seen) j2 hmem (List.mem_cons_of_mem _ hs)

theorem dedupeAux_nodup (seen : List String) (l : List JobResult) :
    ((dedupeAux seen l).map (fun j => dedupKey j.jobUrl)).Nodup := by
  induction l generalizing seen with
  | nil => simp [dedupeAux]
  | cons j rest ih =>
    simp only [dedupeAux]
    by_cases h : dedupKey j.jobUrl ∈ seen
    · rw [if_pos h]; exact ih seen
    · rw [if_neg h]
      simp only [List.map_cons, List.nodup_cons]
      refine ⟨fun hmem => ?_, ih _⟩
      rcases List.mem_map.mp hmem with ⟨j2, hj2, hkey⟩
      exact dedupeAux_not_seen _ _ j2 hj2 (by rw [hkey]; exact List.mem_cons_self _ _)

theorem dedupeAux_covers (seen : List String) (l : List JobResult) :
    ∀ j ∈ l, dedupKey j.jobUrl ∉ seen →
      ∃ j2 ∈ dedupeAux seen l, dedupKey j2.jobUrl = dedupKey j.jobUrl := by
  induction l generalizing seen with
  | nil => simp
  | cons x rest ih =>
    intro j hj hns
    simp only [dedupeAux]
    by_cases h : dedupKey x.jobUrl ∈ seen
    · rw [if_pos h]
      rcases List.mem_cons.mp hj with rfl | hmem
      · exact absurd h hns
      · exact ih seen j hmem hns
    · rw [if_neg h]
      rcases List.mem_cons.mp hj with rfl | hmem
      · exact ⟨j, List.mem_cons_self _ _, rfl⟩
      · by_cases hk : dedupKey j.jobUrl = dedupKey x.jobUrl
        · exact ⟨x, List.mem_cons_self _ _, hk.symm⟩
        · have hns2 : dedupKey j.jobUrl ∉ dedupKey x.jobUrl :: seen := by
            intro hmem2
            rcases List.mem_cons.mp hmem2 with h1 | h2
            · exact hk h1
            · exact hns h2
          rcases ih _ j hmem hns2 with ⟨j2, hj2, hkey⟩
          exact ⟨j2, List.mem_cons_of_mem _ hj2, hkey⟩

theorem dedupeAux_first (seen : List String) (l : List JobResult) :
    ∀ j2 ∈ dedupeAux seen l,
      l.find? (fun j => dedupKey j.jobUrl == dedupKey j2.jobUrl) = some j2 := by
  induction l generalizing seen with
  | nil => simp [dedupeAux]
  | cons x rest ih =>
    intro j2 hj2
    simp only [dedupeAux] at hj2
    by_cases h : dedupKey x.jobUrl ∈ seen
    · rw [if_pos h] at hj2
      have hne : ¬(dedupKey x.jobUrl = dedupKey j2.jobUrl) := by
        intro he
        exact dedupeAux_not_seen seen rest j2 hj2 (he ▸ h)
      rw [List.find?_cons_of_neg _ (by simp [hne])]
      exact ih seen j2 hj2
    · rw [if_neg h] at hj2
      rcases List.mem_cons.mp hj2 with rfl | hmem
      · rw [List.find?_cons_of_pos _ (by simp)]
      · have hne : ¬(dedupKey x.jobUrl = dedupKey j2.jobUrl) := by
          intro he
          exact dedupeAux_not_seen _ rest j2 hmem
            (by rw [← he]; exact List.mem_cons_self _ _)
        rw [List.find?_cons_of_neg _ (by simp [hne])]
        exact ih _ j2 hmem

/-- Claim C2: deduplication retains, for every dedup key occurring in the
input, exactly the first entry carrying that key, in the original relative
order: the output is a sublist of the input (order preserved, nothing
added), its keys are pairwise distinct, every input key is still
represented, and each retained entry is the first entry of the input with
its key. -/
theorem C2_dedupe_keeps_first_occurrence (jobs : List JobResult) :
    List.Sublist (dedupe jobs) jobs ∧
    ((dedupe jobs).map (fun j => dedupKey j.jobUrl)).Nodup ∧
    (∀ j ∈ jobs, ∃ j2 ∈ dedupe jobs, dedupKey j2.jobUrl = dedupKey j.jobUrl) ∧
    (∀ j2 ∈ dedupe jobs,
      jobs.find? (fun j => dedupKey j.jobUrl == dedupKey j2.jobUrl) = some j2) := by
  refine ⟨dedupeAux_sublist [] jobs, dedupeAux_nodup [] jobs, ?_, dedupeAux_first [] jobs⟩
  intro j hj
  exact dedupeAux_covers [] jobs j hj (by simp)

/-- Witness for claim C2 at a concrete duplicate pair: dedupe keeps only
the first of the two, and the retained entry for the dropped key is the
first occurrence. -/
theorem C2_witness :
    dedupe [jobU1, jobU2] = [jobU1] ∧
    ∃ j2 ∈ dedupe [jobU1, jobU2], dedupKey j2.jobUrl = dedupKey jobU2.jobUrl :=
  ⟨by decide, (C2_dedupe_keeps_first_occurrence [jobU1, jobU2]).2.2.1 jobU2 (by decide)⟩

/-! ### Cache behaviour and the hit/miss shape of search -/

theorem cacheLookup_cacheSet_same (st : CacheStore) (ns pk : String)
    (v : List JobResult) (now : Nat) :
    cacheLookup (cacheSet st ns pk v now) ns pk = some { value := v, storedAt := now } := by
  unfold cacheLookup cacheSet
  rw [List.find?_cons_of_pos _ (by simp)]

theorem cacheGet_cacheSet_fresh (st : CacheStore) (ns pk : String) (v : List JobResult)
    (ttl t1 t2 : Nat) (h : t2 - t1 ≤ ttl) :
    cacheGet (cacheSet st ns pk v t1) ns pk ttl t2 = some v := by
  unfold cacheGet
  rw [cacheLookup_cacheSet_same]
  simp [h]

theorem cacheGet_cacheSet_expired (st : CacheStore) (ns pk : String) (v : List JobResult)
    (ttl t1 t2 : Nat) (h : ttl < t2 - t1) :
    cacheGet (cacheSet st ns pk v t1) ns pk ttl t2 = none := by
  unfold cacheGet
  rw [cacheLookup_cacheSet_same]
  simp [Nat.not_le.mpr h]

theorem search_hit (env : SearchEnv) (now : Nat) (st : CacheStore)
    (query : String) (opts : SearchOptions) (cached : List JobResult)
    (h : cacheGet st query (serializeOptions opts) CACHE_TTL_MS now = some cached) :
    search env now st query opts =
      { results := cached, cacheAfter := st, trace := emptyTrace } := by
  simp [search, h]

theorem search_miss (env : SearchEnv) (now : Nat) (st : CacheStore)
    (query : String) (opts : SearchOptions)
    (h : cacheGet st query (serializeOptions opts) CACHE_TTL_MS now = none) :
    search env now st query opts =
      { results := dedupe ((if includeJobspy opts then searchJobSpy env.jobspy else [])
            ++ searchGreenhouse env.greenhouse query (ghBoardsOf opts)
            ++ searchLever env.lever query (leverSitesOf opts))
        cacheAfter := cacheSet st query (serializeOptions opts)
            (dedupe ((if includeJobspy opts then searchJobSpy env.jobspy else [])
              ++ searchGreenhouse env.greenhouse query (ghBoardsOf opts)
              ++ searchLever env.lever query (leverSitesOf opts))) now
        trace := { jobspyCalled := includeJobspy opts
                   ghFetched := ghBoardsOf opts
                   leverFetched := leverSitesOf opts } } := by
  simp [search, h]

/-- Claim C1: after a `search` call that missed the cache and stored its
result, a second call with the same query and options within the 30-minute
TTL (at any later clock `t2` with `t2 - t1 ≤ CACHE_TTL_MS`, and against any
adapter environment whatsoever) returns exactly the cached list, leaves the
store unchanged, and invokes no adapter: the scrape does not run and no
board or site is fetched (`emptyTrace`). -/
theorem C1_second_call_hits_cache (env env2 : SearchEnv) (t1 t2 : Nat) (st : CacheStore)
    (query : String) (opts : SearchOptions)
    (hmiss : cacheGet st query (serializeOptions opts) CACHE_TTL_MS t1 = none)
    (hfresh : t2 - t1 ≤ CACHE_TTL_MS) :
    search env2 t2 (search env t1 st query opts).cacheAfter query opts =
      { results := (search env t1 st query opts).results
        cacheAfter := (search env t1 st query opts).cacheAfter
        trace := emptyTrace } := by
  rw [search_miss env t1 st query opts hmiss]
  exact search_hit env2 t2 _ query opts _
    (cacheGet_cacheSet_fresh _ _ _ _ _ _ _ hfresh)

/-- Claim C9: cache round trip.  `set` then `get` within the TTL returns
the stored value; once more than the TTL has elapsed `get` returns absent,
yet the expired entry is still physically present in the store (reads never
delete — `get` is a pure function of the store); `prune` removes the
expired entry, and `clear` empties the store. -/
theorem C9_cache_round_trip (st : CacheStore) (ns pk : String) (v : List JobResult)
    (ttl t1 t2 : Nat) :
    (t2 - t1 ≤ ttl → cacheGet (cacheSet st ns pk v t1) ns pk ttl t2 = some v) ∧
    (ttl < t2 - t1 → cacheGet (cacheSet st ns pk v t1) ns pk ttl t2 = none) ∧
    cacheLookup (cacheSet st ns pk v t1) ns pk = some { value := v, storedAt := t1 } ∧
    (ttl < t2 - t1 →
      cacheLookup (cachePrune (cacheSet st ns pk v t1) ttl t2).1 ns pk = none) ∧
    (cacheClear (cacheSet st ns pk v t1)).1 = [] := by
  refine ⟨cacheGet_cacheSet_fresh st ns pk v ttl t1 t2,
          cacheGet_cacheSet_expired st ns pk v ttl t1 t2,
          cacheLookup_cacheSet_same st ns pk v t1, ?_, rfl⟩
  intro h
  have hfind : ((cachePrune (cacheSet st ns pk v t1) ttl t2).1.find?
      (fun e => e.1 == (ns, pk))) = none := by
    rw [List.find?_eq_none]
    intro e he
    simp only [cachePrune, cacheSet] at he
    rw [List.mem_filter] at he
    rcases he with ⟨hmem, hvalid⟩
    rcases List.mem_cons.mp hmem with rfl | hrest
    · simp only [decide_eq_true_eq] at hvalid
      omega
    · rw [List.mem_filter] at hrest
      simpa using hrest.2
  unfold cacheLookup
  rw [hfind]

/-! ### Failure isolation of the adapters -/

theorem ghBoard_failed (env : String → FetchOutcome (List GreenhouseJob)) (query b : String)
    (h : (env b).failed = true) : ghBoard env query b = [] := by
  unfold ghBoard
  cases henv : env b with
  | err => rfl
  | notOk => rfl
  | ok jobs => rw [henv] at h; simp [FetchOutcome.failed] at h

theorem searchGreenhouse_cons (env : String → FetchOutcome (List GreenhouseJob))
    (query b : String) (rest : List String) :
    searchGreenhouse env query (b :: rest) =
      ghBoard env query b ++ searchGreenhouse env query rest := by
  simp [searchGreenhouse]

theorem searchGreenhouse_all_failed (env : String → FetchOutcome (List GreenhouseJob))
    (query : String) (boards : List String)
    (h : ∀ b ∈ boards, (env b).failed = true) : searchGreenhouse env query boards = [] := by
  induction boards with
  | nil => rfl
  | cons b rest ih =>
    rw [searchGreenhouse_cons,
      ghBoard_failed env query b (h b (List.mem_cons_self _ _)),
      ih fun x hx => h x (List.mem_cons_of_mem _ hx)]
    rfl

theorem leverSite_failed (env : String → FetchOutcome (List LeverPosting)) (query s : String)
    (h : (env s).failed = true) : leverSite env query s = [] := by
  unfold leverSite
  cases henv : env s with
  | err => rfl
  | notOk => rfl
  | ok ps => rw [henv] at h; simp [FetchOutcome.failed] at h

theorem searchLever_cons (env : String → FetchOutcome (List LeverPosting))
    (query s : String) (rest : List String) :
    searchLever env query (s :: rest) =
      leverSite env query s ++ searchLever env query rest := by
  simp [searchLever]

theorem searchLever_all_failed (env : String → FetchOutcome (List LeverPosting))
    (query : String) (sites : List String)
    (h : ∀ s ∈ sites, (env s).failed = true) : searchLever env query sites = [] := by
  induction sites with
  | nil => rfl
  | cons s rest ih =>
    rw [searchLever_cons,
      leverSite_failed env query s (h s (List.mem_cons_self _ _)),
      ih fun x hx => h x (List.mem_cons_of_mem _ hx)]
    rfl

theorem searchJobSpy_none : searchJobSpy none = [] := rfl

/-- Claim C3: on a cache miss `search` never propagates an adapter failure
(the embedding is total and each failing fetch contributes the empty list).
If the scrape rejects, the result is the deduplicated union of the two
board adapters; if every fetch of one board adapter fails (throw or
non-success status), the result is the deduplicated union of the remaining
adapters; and when every configured source fails the result is the empty
list, not an error. -/
theorem C3_partial_failure_isolation (env : SearchEnv) (now : Nat) (st : CacheStore)
    (query : String) (opts : SearchOptions)
    (hmiss : cacheGet st query (serializeOptions opts) CACHE_TTL_MS now = none) :
    (env.jobspy = none →
      (search env now st query opts).results =
        dedupe (searchGreenhouse env.greenhouse query (ghBoardsOf opts)
          ++ searchLever env.lever query (leverSitesOf opts))) ∧
    ((∀ b ∈ ghBoardsOf opts, (env.greenhouse b).failed = true) →
      (search env now st query opts).results =
        dedupe ((if includeJobspy opts then searchJobSpy env.jobspy else [])
          ++ searchLever env.lever query (leverSitesOf opts))) ∧
    ((∀ s ∈ leverSitesOf opts, (env.lever s).failed = true) →
      (search env now st query opts).results =
        dedupe ((if includeJobspy opts then searchJobSpy env.jobspy else [])
          ++ searchGreenhouse env.greenhouse query (ghBoardsOf opts))) ∧
    (env.jobspy = none →
      (∀ b ∈ ghBoardsOf opts, (env.greenhouse b).failed = true) →
      (∀ s ∈ leverSitesOf opts, (env.lever s).failed = true) →
      (search env now st query opts).results = []) := by
  rw [search_miss env now st query opts hmiss]
  refine ⟨fun hjs => ?_, fun hgh => ?_, fun hlv => ?_, fun hjs hgh hlv => ?_⟩
  · simp [hjs, searchJobSpy_none]
  · simp [searchGreenhouse_all_failed env.greenhouse query _ hgh]
  · simp [searchLever_all_failed env.lever query _ hlv]
  · simp [hjs, searchJobSpy_none,
      searchGreenhouse_all_failed env.greenhouse query _ hgh,
      searchLever_all_failed env.lever query _ hlv, dedupe, dedupeAux]

/-- Claim C5: on a cache miss the adapter task set is built exactly as the
source does: the jobspy adapter runs iff `opts.site` does not name a
source outside the two it serves (it runs when `site` is absent, empty, or
one of linkedin and indeed), the Greenhouse adapter fetches exactly the
configured board list iff that list is present and non-empty, and likewise
the Lever adapter for its site list. -/
theorem includeJobspy_iff (o : SearchOptions) :
    includeJobspy o = true ↔
      ¬∃ s, o.site = some s ∧ s ≠ "" ∧ s ≠ "linkedin" ∧ s ≠ "indeed" := by
  cases hsite : o.site with
  | none => simp [includeJobspy, hsite]
  | some s =>
    simp only [includeJobspy, hsite]
    by_cases hs : s = ""
    · subst hs; simp
    · rw [if_neg hs]
      by_cases hli : s = "linkedin"
      · subst hli; simp
      · by_cases hin : s = "indeed"
        · subst hin; simp
        · simp [hs, hli, hin]

theorem C5_adapter_task_set (env : SearchEnv) (now : Nat) (st : CacheStore)
    (query : String) (opts : SearchOptions)
    (hmiss : cacheGet st query (serializeOptions opts) CACHE_TTL_MS now = none) :
    ((search env now st query opts).trace.jobspyCalled = true ↔
      ¬∃ s, opts.site = some s ∧ s ≠ "" ∧ s ≠ "linkedin" ∧ s ≠ "indeed") ∧
    ((opts.site = none ∨ opts.site = some "linkedin" ∨ opts.site = some "indeed") →
      (search env now st query opts).trace.jobspyCalled = true) ∧
    (∀ bs, opts.greenhouseBoards = some bs → bs ≠ [] →
      (search env now st query opts).trace.ghFetched = bs) ∧
    ((opts.greenhouseBoards = none ∨ opts.greenhouseBoards = some []) →
      (search env now st query opts).trace.ghFetched = []) ∧
    (∀ ls, opts.leverSites = some ls → ls ≠ [] →
      (search env now st query opts).trace.leverFetched = ls) ∧
    ((opts.leverSites = none ∨ opts.leverSites = some []) →
      (search env now st query opts).trace.leverFetched = []) := by
  rw [search_miss env now st query opts hmiss]
  refine ⟨includeJobspy_iff opts, ?_, ?_, ?_, ?_, ?_⟩
  · intro h
    show includeJobspy opts = true
    rw [includeJobspy_iff]
    rintro ⟨s, hs, hne, hli, hin⟩
    rcases h with h | h | h
    · rw [h] at hs; cases hs
    · rw [h] at hs; injection hs with he; exact hli he.symm
    · rw [h] at hs; injection hs with he; exact hin he.symm
  · intro bs hbs hne
    simp [ghBoardsOf, hbs, List.length_pos.mpr hne]
  · intro h
    rcases h with h | h <;> simp [ghBoardsOf, h]
  · intro ls hls hne
    simp [leverSitesOf, hls, List.length_pos.mpr hne]
  · intro h
    rcases h with h | h <;> simp [leverSitesOf, h]

/-- Claim C8, general part plus a concrete exceedance: the merged list is
exactly the deduplicated concatenation of the adapter lists with no
truncation, and for the concrete environment `envCap` (two distinct scraped
records) with `results := some 1` the returned list has length 2, strictly
longer than the requested cap. -/
theorem C8_no_cap_after_merge :
    (∀ (env : SearchEnv) (now : Nat) (st : CacheStore) (query : String)
      (opts : SearchOptions),
      cacheGet st query (serializeOptions opts) CACHE_TTL_MS now = none →
      (search env now st query opts).results =
        dedupe ((if includeJobspy opts then searchJobSpy env.jobspy else [])
          ++ searchGreenhouse env.greenhouse query (ghBoardsOf opts)
          ++ searchLever env.lever query (leverSitesOf opts))) ∧
    (search envCap 0 [] "dev" { results := some 1 }).results.length = 2 ∧
    (1 : Nat) < 2 := by
  refine ⟨fun env now st query opts h => ?_, by decide, by decide⟩
  rw [search_miss env now st query opts h]

/-! ### The relevance filter (claim C4) -/

/-- Claim C4: for the Greenhouse and Lever adapters, a fetched posting is
included exactly when at least one whitespace-delimited lower-cased query
token occurs as a substring of the lower-cased concatenation of title and
location (for Lever also the team field): the per-identifier adapter result
is precisely the filtered, normalized payload, the filter is equivalent to
the token-substring predicate, and on the concrete spec example (title
Backend Engineer, location Remote) both adapters include it for the query
"engineer remote" and exclude it for "nurse". -/
theorem C4_relevance_filter :
    (∀ (env : String → FetchOutcome (List GreenhouseJob)) (query board : String)
      (jobs : List GreenhouseJob), env board = .ok jobs →
      searchGreenhouse env query [board] =
        (jobs.filter (ghMatches query)).map (ghNormalize board)) ∧
    (∀ (query : String) (j : GreenhouseJob), ghMatches query j = true ↔
      ∃ w ∈ splitWs (lowerStr query),
        strIncludes (lowerStr (j.title ++ " " ++ jsOrStr j.locationName "")) w = true) ∧
    (∀ (env : String → FetchOutcome (List LeverPosting)) (query site : String)
      (ps : List LeverPosting), env site = .ok ps →
      searchLever env query [site] =
        (ps.filter (leverMatches query)).map (leverNormalize site)) ∧
    (∀ (query : String) (p : LeverPosting), leverMatches query p = true ↔
      ∃ w ∈ splitWs (lowerStr query),
        strIncludes (lowerStr (p.text ++ " " ++ jsOrStr p.categoriesLocation ""
          ++ " " ++ jsOrStr p.categoriesTeam "")) w = true) ∧
    ghMatches "engineer remote" ghBE = true ∧ ghMatches "nurse" ghBE = false ∧
    leverMatches "engineer remote" levBE = true ∧ leverMatches "nurse" levBE = false := by
  refine ⟨?_, ?_, ?_, ?_, by decide, by decide, by decide, by decide⟩
  · intro env query board jobs h
    simp [searchGreenhouse, ghBoard, h]
  · intro query j
    simp [ghMatches, ghText, queryTokens, List.any_eq_true]
  · intro env query site ps h
    simp [searchLever, leverSite, h]
  · intro query p
    simp [leverMatches, leverText, queryTokens, List.any_eq_true]

/-- Witness for claim C4: the Greenhouse adapter equation applied at a
concrete environment serving one board with the spec-example posting; for
the matching query the posting comes through normalized, for the
non-matching query nothing does. -/
theorem C4_witness :
    (searchGreenhouse envFail.greenhouse "engineer remote" ["acme"] =
      ([ghBE].filter (ghMatches "engineer remote")).map (ghNormalize "acme")) ∧
    searchGreenhouse envFail.greenhouse "engineer remote" ["acme"]
      = [ghNormalize "acme" ghBE] ∧
    searchGreenhouse envFail.greenhouse "nurse" ["acme"] = [] :=
  ⟨C4_relevance_filter.1 envFail.greenhouse "engineer remote" "acme" [ghBE] rfl,
   by decide, by decide⟩

/-! ### Salary formatting (claims C6 and C10) -/

/-- Claim C6: `formatSalary` satisfies the spec equations, and in general
produces the range shape when both bounds are (truthily) present, the
min-plus shape when only the minimum is, the up-to shape when only the
maximum is, and null when neither is. -/
theorem C6_formatSalary_shapes :
    formatSalary (some 120000) (some 150000) (some "yearly") (some "USD")
      = some "USD 120,000-150,000/yearly" ∧
    formatSalary none (some 150000) (some "yearly") (some "USD")
      = some "up to USD 150,000/yearly" ∧
    formatSalary none none none none = none ∧
    (∀ (a b : Int) (i c : String), a ≠ 0 → b ≠ 0 → i ≠ "" → c ≠ "" →
      formatSalary (some a) (some b) (some i) (some c)
        = some (c ++ " " ++ localeString a ++ "-" ++ localeString b ++ "/" ++ i)) ∧
    (∀ (a : Int) (mx : Option Int) (i c : String),
      a ≠ 0 → truthyN mx = false → i ≠ "" → c ≠ "" →
      formatSalary (some a) mx (some i) (some c)
        = some (c ++ " " ++ localeString a ++ "+" ++ "/" ++ i)) ∧
    (∀ (mn : Option Int) (b : Int) (i c : String),
      truthyN mn = false → b ≠ 0 → i ≠ "" → c ≠ "" →
      formatSalary mn (some b) (some i) (some c)
        = some ("up to " ++ c ++ " " ++ localeString b ++ "/" ++ i)) ∧
    (∀ (mn mx : Option Int) (i c : Option String),
      truthyN mn = false → truthyN mx = false → formatSalary mn mx i c = none) := by
  refine ⟨by decide, by decide, by decide, ?_, ?_, ?_, ?_⟩
  · intro a b i c ha hb hi hc
    have h1 : truthyN (some a) = true := by simp [truthyN, ha]
    have h2 : truthyN (some b) = true := by simp [truthyN, hb]
    have h3 : truthyS (some i) = true := by simp [truthyS, hi]
    simp [formatSalary, h1, h2, h3, jsOrStr, hc, ← String.append_assoc]
  · intro a mx i c ha hmx hi hc
    have h1 : truthyN (some a) = true := by simp [truthyN, ha]
    have h3 : truthyS (some i) = true := by simp [truthyS, hi]
    simp [formatSalary, h1, h3, hmx, jsOrStr, hc, ← String.append_assoc]
  · intro mn b i c hmn hb hi hc
    have h2 : truthyN (some b) = true := by simp [truthyN, hb]
    have h3 : truthyS (some i) = true := by simp [truthyS, hi]
    simp [formatSalary, h2, h3, hmn, jsOrStr, hc, ← String.append_assoc]
  · intro mn mx i c hmn hmx
    simp [formatSalary, hmn, hmx]

/-- Witness for claim C6: the range shape applied at concrete bounds. -/
theorem C6_witness :
    formatSalary (some 7000) (some 9000) (some "mo") (some "EUR")
      = some ("EUR" ++ " " ++ localeString 7000 ++ "-" ++ localeString 9000 ++ "/" ++ "mo") :=
  C6_formatSalary_shapes.2.2.2.1 7000 9000 "mo" "EUR"
    (by decide) (by decide) (by decide) (by decide)

/-- Claim C10: `formatSalary` treats a zero bound as absent, by JS
truthiness: zero for both bounds gives null whatever the interval and
currency; a zero minimum behaves exactly like an absent minimum; and with
a zero minimum and a non-zero maximum the up-to shape is produced, the
zero minimum dropped. -/
theorem C10_zero_bound_is_absent :
    (∀ (i c : Option String), formatSalary (some 0) (some 0) i c = none) ∧
    (∀ (mx : Option Int) (i c : Option String),
      formatSalary (some 0) mx i c = formatSalary none mx i c) ∧
    (∀ (b : Int) (i c : String), b ≠ 0 → i ≠ "" → c ≠ "" →
      formatSalary (some 0) (some b) (some i) (some c)
        = some ("up to " ++ c ++ " " ++ localeString b ++ "/" ++ i)) := by
  refine ⟨fun i c => by simp [formatSalary, truthyN], ?_, ?_⟩
  · intro mx i c
    simp [formatSalary, truthyN]
  · intro b i c hb hi hc
    have h0 : truthyN (some 0) = false := by decide
    have h2 : truthyN (some b) = true := by simp [truthyN, hb]
    have h3 : truthyS (some i) = true := by simp [truthyS, hi]
    simp [formatSalary, h0, h2, h3, jsOrStr, hc, ← String.append_assoc]

/-- Witness for claim C10: both parts applied at concrete inputs; zero
bounds vanish, a zero minimum with maximum 5000 yields the up-to shape. -/
theorem C10_witness :
    formatSalary (some 0) (some 0) (some "yearly") (some "USD") = none ∧
    formatSalary (some 0) (some 5000) (some "yearly") (some "USD")
      = some ("up to " ++ "USD" ++ " " ++ localeString 5000 ++ "/" ++ "yearly") :=
  ⟨C10_zero_bound_is_absent.1 (some "yearly") (some "USD"),
   C10_zero_bound_is_absent.2.2 5000 "yearly" "USD" (by decide) (by decide) (by decide)⟩

/-! ### Provenance of returned jobs (claim C7) -/

theorem dedupe_sublist (jobs : List JobResult) : List.Sublist (dedupe jobs) jobs :=
  dedupeAux_sublist [] jobs

theorem mem_searchGreenhouse (env : String → FetchOutcome (List GreenhouseJob))
    (query : String) (boards : List String) :
    ∀ j ∈ searchGreenhouse env query boards,
      ∃ b ∈ boards, ∃ jobs, env b = .ok jobs ∧ ∃ g ∈ jobs, j = ghNormalize b g := by
  induction boards with
  | nil => intro j hj; simp [searchGreenhouse] at hj
  | cons b rest ih =>
    intro j hj
    rw [searchGreenhouse_cons] at hj
    rcases List.mem_append.mp hj with h1 | h2
    · unfold ghBoard at h1
      cases henv : env b with
      | err => rw [henv] at h1; simp at h1
      | notOk => rw [henv] at h1; simp at h1
      | ok jobs =>
        rw [henv] at h1
        rcases List.mem_map.mp h1 with ⟨g, hg, rfl⟩
        exact ⟨b, List.mem_cons_self _ _, jobs, henv, g, (List.mem_filter.mp hg).1, rfl⟩
    · rcases ih j h2 with ⟨b2, hb2, jobs, henv, g, hg, he⟩
      exact ⟨b2, List.mem_cons_of_mem _ hb2, jobs, henv, g, hg, he⟩

theorem mem_searchLever (env : String → FetchOutcome (List LeverPosting))
    (query : String) (sites : List String) :
    ∀ j ∈ searchLever env query sites,
      ∃ s ∈ sites, ∃ ps, env s = .ok ps ∧ ∃ p ∈ ps, j = leverNormalize s p := by
  induction sites with
  | nil => intro j hj; simp [searchLever] at hj
  | cons s rest ih =>
    intro j hj
    rw [searchLever_cons] at hj
    rcases List.mem_append.mp hj with h1 | h2
    · unfold leverSite at h1
      cases henv : env s with
      | err => rw [henv] at h1; simp at h1
      | notOk => rw [henv] at h1; simp at h1
      | ok ps =>
        rw [henv] at h1
        rcases List.mem_map.mp h1 with ⟨p, hp, rfl⟩
        exact ⟨s, List.mem_cons_self _ _, ps, henv, p, (List.mem_filter.mp hp).1, rfl⟩
    · rcases ih j h2 with ⟨s2, hs2, ps, henv, p, hp, he⟩
      exact ⟨s2, List.mem_cons_of_mem _ hs2, ps, henv, p, hp, he⟩

/-- Counterexample to claim C7 as stated: the adapters validate neither
the URL nor the source tag.  A scraped record whose `site` is "linkedin"
and whose `jobUrl` is empty flows through `search` unchanged, so the
returned job's `source` is "linkedin" — not one of the three adapter tags
jobspy, greenhouse, lever — and its `jobUrl` is the empty string. -/
theorem C7_counterexample :
    (search envBad 0 [] "q" ({} : SearchOptions)).results = [mapJobSpy recBad] ∧
    (mapJobSpy recBad).source = "linkedin" ∧
    (mapJobSpy recBad).jobUrl = "" ∧
    ¬((mapJobSpy recBad).source = "jobspy" ∨ (mapJobSpy recBad).source = "greenhouse" ∨
      (mapJobSpy recBad).source = "lever") := by decide

/-- Claim C7, amended: on a cache miss, provided every upstream record is
well formed — each scraped record carries site linkedin or indeed (the
documented contract of the scraping capability) and a non-empty URL, each
Greenhouse job a non-empty absolute URL, and each Lever posting a truthy
hosted or apply URL — every job returned by `search` has a non-empty
`jobUrl` and a `source` among linkedin, indeed (both from the aggregated
adapter, which tags results with the underlying board name, falling back
to "jobspy" only when the record lacks one), greenhouse and lever. -/
theorem C7_amended_url_and_source (env : SearchEnv) (now : Nat) (st : CacheStore)
    (query : String) (opts : SearchOptions)
    (hmiss : cacheGet st query (serializeOptions opts) CACHE_TTL_MS now = none)
    (hjs : ∀ rs, env.jobspy = some rs →
      ∀ r ∈ rs, (r.site = "linkedin" ∨ r.site = "indeed") ∧ r.jobUrl ≠ "")
    (hgh : ∀ b jobs, env.greenhouse b = .ok jobs → ∀ g ∈ jobs, g.absoluteUrl ≠ "")
    (hlv : ∀ s ps, env.lever s = .ok ps →
      ∀ p ∈ ps, jsOrStr p.hostedUrl (p.applyUrl.getD "") ≠ "") :
    ∀ j ∈ (search env now st query opts).results,
      j.jobUrl ≠ "" ∧
      (j.source = "linkedin" ∨ j.source = "indeed" ∨
        j.source = "greenhouse" ∨ j.source = "lever") := by
  intro j hj
  rw [search_miss env now st query opts hmiss] at hj
  have hj2 := (dedupe_sublist _).subset hj
  rcases List.mem_append.mp hj2 with h12 | hlev
  · rcases List.mem_append.mp h12 with hjsp | hghp
    · by_cases hinc : includeJobspy opts
      · rw [if_pos hinc] at hjsp
        cases hje : env.jobspy with
        | none => rw [hje] at hjsp; simp [searchJobSpy] at hjsp
        | some rs =>
          rw [hje] at hjsp
          simp only [searchJobSpy] at hjsp
          rcases List.mem_map.mp hjsp with ⟨r, hr, rfl⟩
          rcases hjs rs hje r hr with ⟨hsite, hurl⟩
          refine ⟨by simpa [mapJobSpy] using hurl, ?_⟩
          rcases hsite with h | h
          · left; simp [mapJobSpy, h]
          · right; left; simp [mapJobSpy, h]
      · rw [if_neg hinc] at hjsp; simp at hjsp
    · rcases mem_searchGreenhouse env.greenhouse query _ j hghp with
        ⟨b, _, jobs, henv, g, hg, rfl⟩
      refine ⟨?_, Or.inr (Or.inr (Or.inl rfl))⟩
      simpa [ghNormalize] using hgh b jobs henv g hg
  · rcases mem_searchLever env.lever query _ j hlev with
      ⟨s2, _, ps, henv, p, hp, rfl⟩
    refine ⟨?_, Or.inr (Or.inr (Or.inr rfl))⟩
    simpa [leverNormalize] using hlv s2 ps henv p hp

/-- Witness for the amended claim C7 at a concrete well-formed environment:
the first scraped record of `envCap` comes back with a non-empty URL and
the linkedin source tag. -/
theorem C7_witness :
    (mapJobSpy recCap1).jobUrl ≠ "" ∧
    ((mapJobSpy recCap1).source = "linkedin" ∨ (mapJobSpy recCap1).source = "indeed" ∨
      (mapJobSpy recCap1).source = "greenhouse" ∨ (mapJobSpy recCap1).source = "lever") :=
  C7_amended_url_and_source envCap 0 [] "dev" {} rfl
    (by intro rs hrs; injection hrs with h; subst h; decide)
    (by intro b jobs h; simp [envCap] at h)
    (by intro s ps h; simp [envCap] at h)
    (mapJobSpy recCap1) (by decide)

/-! ### Remaining witnesses -/

/-- Witness for claim C1 at concrete inputs: a first call at time 0 over
the empty store, a second call at time 1000 against a different adapter
environment, returning the first call's results from the cache with no
adapter invoked. -/
theorem C1_witness :
    search envBad 1000 (search envCap 0 [] "dev" ({} : SearchOptions)).cacheAfter
        "dev" ({} : SearchOptions) =
      { results := (search envCap 0 [] "dev" ({} : SearchOptions)).results
        cacheAfter := (search envCap 0 [] "dev" ({} : SearchOptions)).cacheAfter
        trace := emptyTrace } :=
  C1_second_call_hits_cache envCap envBad 0 1000 [] "dev" {} rfl (by decide)

/-- Witness for claim C3 at a concrete environment in which the scrape
rejects but one Greenhouse board and one Lever site respond: the result is
the deduplicated union of the two board adapters, concretely the two
normalized postings — non-empty despite the failed adapter. -/
theorem C3_witness :
    (search envFail 0 [] "engineer remote"
        { greenhouseBoards := some ["acme"], leverSites := some ["lv"] }).results =
      dedupe (searchGreenhouse envFail.greenhouse "engineer remote"
          (ghBoardsOf { greenhouseBoards := some ["acme"], leverSites := some ["lv"] })
        ++ searchLever envFail.lever "engineer remote"
          (leverSitesOf { greenhouseBoards := some ["acme"], leverSites := some ["lv"] })) ∧
    (search envFail 0 [] "engineer remote"
        { greenhouseBoards := some ["acme"], leverSites := some ["lv"] }).results =
      [ghNormalize "acme" ghBE, leverNormalize "lv" levBE] :=
  ⟨(C3_partial_failure_isolation envFail 0 [] "engineer remote"
      { greenhouseBoards := some ["acme"], leverSites := some ["lv"] } rfl).1 rfl,
   by decide⟩

/-- Witness for claim C5 at concrete options with site linkedin, one
configured Greenhouse board and no Lever sites. -/
theorem C5_witness :
    (search envFail 0 [] "dev"
        { site := some "linkedin", greenhouseBoards := some ["acme"] }).trace.jobspyCalled
      = true ∧
    (search envFail 0 [] "dev"
        { site := some "linkedin", greenhouseBoards := some ["acme"] }).trace.ghFetched
      = ["acme"] ∧
    (search envFail 0 [] "dev"
        { site := some "linkedin", greenhouseBoards := some ["acme"] }).trace.leverFetched
      = [] :=
  ⟨(C5_adapter_task_set envFail 0 [] "dev"
      { site := some "linkedin", greenhouseBoards := some ["acme"] } rfl).2.1
      (Or.inr (Or.inl rfl)),
   (C5_adapter_task_set envFail 0 [] "dev"
      { site := some "linkedin", greenhouseBoards := some ["acme"] } rfl).2.2.1
      ["acme"] rfl (by decide),
   (C5_adapter_task_set envFail 0 [] "dev"
      { site := some "linkedin", greenhouseBoards := some ["acme"] } rfl).2.2.2.2.2
      (Or.inl rfl)⟩

/-- Witness for claim C8: the general no-truncation equation applied at the
concrete environment that exceeds the requested cap. -/
theorem C8_witness :
    (search envCap 0 [] "dev" { results := some 1 }).results =
      dedupe ((if includeJobspy { results := some 1 } then searchJobSpy envCap.jobspy else [])
        ++ searchGreenhouse envCap.greenhouse "dev" (ghBoardsOf { results := some 1 })
        ++ searchLever envCap.lever "dev" (leverSitesOf { results := some 1 })) :=
  C8_no_cap_after_merge.1 envCap 0 [] "dev" { results := some 1 } rfl

/-- Witness for claim C9 at a concrete store: a value set at time 0 is
returned at time 5 under TTL 10, absent at time 20, and pruned at 20. -/
theorem C9_witness :
    cacheGet (cacheSet [] "q" "o" [jobU1] 0) "q" "o" 10 5 = some [jobU1] ∧
    cacheGet (cacheSet [] "q" "o" [jobU1] 0) "q" "o" 10 20 = none ∧
    cacheLookup (cachePrune (cacheSet [] "q" "o" [jobU1] 0) 10 20).1 "q" "o" = none :=
  ⟨(C9_cache_round_trip [] "q" "o" [jobU1] 10 0 5).1 (by decide),
   (C9_cache_round_trip [] "q" "o" [jobU1] 10 0 20).2.1 (by decide),
   (C9_cache_round_trip [] "q" "o" [jobU1] 10 0 20).2.2.2.1 (by decide)⟩

end JobHunter
